import Mathlib

/-!
Verification of the notification delivery engine of the mini-app backend.

The embedding follows the source:
* `src/backend/models/Podcast.js` (second document in the file): the
  `notificationSchema` with its methods `markAsSent`, `markAsFailed`,
  `markAsRead`, `retry` and the static `findPending`;
* `src/backend/services/notificationService.js`: the `NotificationService`
  methods `sendNotification` (one dispatch round), `sendEmailNotification`
  and `processPendingNotifications` (the periodic sweep).

Times are modelled as natural numbers, Mongo documents as Lean structures,
and the asynchronous settlement of the per-channel send promises inside one
round (`Promise.allSettled`) as an explicit list of per-channel outcomes
folded over the record in settlement order.
-/

namespace Notif

/-- The four delivery channels, in the key order of the Mongoose schema
subdocuments `channels` and `deliveryStatus`: telegram, email, push, inApp. -/
inductive Channel
  | telegram
  | email
  | push
  | inApp
  deriving DecidableEq, Fintype

/-- The `priority` enum of the schema: `['low', 'normal', 'high', 'urgent']`. -/
inductive Priority
  | low
  | normal
  | high
  | urgent
  deriving DecidableEq

/-- The `status` enum of the schema:
`['pending', 'sending', 'sent', 'failed', 'cancelled']`. -/
inductive NStatus
  | pending
  | sending
  | sent
  | failed
  | cancelled
  deriving DecidableEq

/-- One per-channel `deliveryStatus` subdocument:
`{ sent: Boolean (default false), sentAt: Date, error: String }`, plus
`readAt: Date` on the `inApp` channel.  Absent dates/strings are `none`. -/
structure ChannelDelivery where
  sent : Bool
  sentAt : Option Nat
  error : Option String
  readAt : Option Nat
  deriving DecidableEq

/-- A fresh `deliveryStatus` subdocument: all schema defaults
(`sent: false`, no dates, no error). -/
def freshDS : ChannelDelivery :=
  { sent := false, sentAt := none, error := none, readAt := none }

/-- A notification record, restricted to the fields the delivery engine reads
or writes.  The free-form fields (`recipient`, `type`, `title`, `content`,
`data`, `metadata`, `createdAt`/`updatedAt`) never drive the engine's control
flow and are omitted; the recipient lookup that the email channel performs is
passed to `sendEmailNotification` explicitly. -/
structure Notification where
  channels : Channel → Bool
  deliveryStatus : Channel → ChannelDelivery
  priority : Priority
  status : NStatus
  scheduledAt : Nat
  sentAt : Option Nat
  readAt : Option Nat
  retryCount : Nat
  maxRetries : Nat

/-- All channels, in the `Object.keys` order of the schema subdocuments. -/
def channelList : List Channel :=
  [Channel.telegram, Channel.email, Channel.push, Channel.inApp]

/-- Pointwise update of one channel's `deliveryStatus` subdocument. -/
def setDS (f : Channel → ChannelDelivery) (c : Channel) (d : ChannelDelivery) :
    Channel → ChannelDelivery :=
  fun x => if x = c then d else f x

/-- `notificationSchema.methods.markAsSent(channel)`.  Sets
`deliveryStatus[channel].sent = true` and `sentAt = now` (the
`if (this.deliveryStatus[channel])` guard of the source is always true for a
channel of the enum), then compares the number of enabled channels
(`Object.keys(this.channels).filter(key => this.channels[key])`) with the
number of channels whose `deliveryStatus` is `sent`
(`Object.keys(this.deliveryStatus).filter(key => this.deliveryStatus[key]?.sent)`);
when the two lengths agree it sets `status = 'sent'` and the global `sentAt`
(the schema's pre-save hook, which sets `sentAt` whenever `status` flips to
`'sent'`, is absorbed into the same assignment). -/
def markAsSent (now : Nat) (c : Channel) (n : Notification) : Notification :=
  let ds := setDS n.deliveryStatus c
    { n.deliveryStatus c with sent := true, sentAt := some now }
  let allChannels := channelList.filter (fun k => n.channels k)
  let sentChannels := channelList.filter (fun k => (ds k).sent)
  if allChannels.length = sentChannels.length then
    { n with deliveryStatus := ds, status := NStatus.sent, sentAt := some now }
  else
    { n with deliveryStatus := ds }

/-- `notificationSchema.methods.markAsFailed(channel, error)`.  Records the
error message on the channel, increments `retryCount` by one, and sets
`status = 'failed'` when `retryCount >= maxRetries`, else
`status = 'pending'`. -/
def markAsFailed (c : Channel) (err : String) (n : Notification) : Notification :=
  let ds := setDS n.deliveryStatus c { n.deliveryStatus c with error := some err }
  let rc := n.retryCount + 1
  if n.maxRetries ≤ rc then
    { n with deliveryStatus := ds, retryCount := rc, status := NStatus.failed }
  else
    { n with deliveryStatus := ds, retryCount := rc, status := NStatus.pending }

/-- `notificationSchema.methods.markAsRead()`: sets the global `readAt` and
`deliveryStatus.inApp.readAt`. -/
def markAsRead (now : Nat) (n : Notification) : Notification :=
  let ds := setDS n.deliveryStatus Channel.inApp
    { n.deliveryStatus Channel.inApp with readAt := some now }
  { n with readAt := some now, deliveryStatus := ds }

/-- `notificationSchema.methods.retry()`: unconditionally sets
`status = 'pending'` and `scheduledAt = new Date()`. -/
def retry (now : Nat) (n : Notification) : Notification :=
  { n with status := NStatus.pending, scheduledAt := now }

/-- The string stored in Mongo for each `priority` value. -/
def priorityStr : Priority → String
  | Priority.low => "low"
  | Priority.normal => "normal"
  | Priority.high => "high"
  | Priority.urgent => "urgent"

/-- Rank of `priorityStr p` in byte-wise (lexicographic) string order, which
is the order MongoDB uses when `findPending` runs `.sort({ priority: -1 })`
on the string-valued `priority` field:
`"high" < "low" < "normal" < "urgent"`. -/
def priorityStrRank : Priority → Nat
  | Priority.high => 0
  | Priority.low => 1
  | Priority.normal => 2
  | Priority.urgent => 3

/-- The query filter of `notificationSchema.statics.findPending`:
`{ status: 'pending', scheduledAt: { $lte: now } }`. -/
def pendingDue (now : Nat) (n : Notification) : Bool :=
  decide (n.status = NStatus.pending) && decide (n.scheduledAt ≤ now)

/-- The comparison realised by `.sort({ priority: -1, scheduledAt: 1 })`:
`priority` (a string) descending in byte-wise order, then `scheduledAt`
ascending. -/
def sortLE (a b : Notification) : Bool :=
  if priorityStrRank a.priority = priorityStrRank b.priority then
    decide (a.scheduledAt ≤ b.scheduledAt)
  else
    decide (priorityStrRank b.priority < priorityStrRank a.priority)

/-- Insertion step of a stable sort by `sortLE`. -/
def insertLE (a : Notification) : List Notification → List Notification
  | [] => [a]
  | b :: l => if sortLE a b then a :: b :: l else b :: insertLE a l

/-- Stable insertion sort by `sortLE` (the sort order the store applies). -/
def sortPending : List Notification → List Notification
  | [] => []
  | a :: l => insertLE a (sortPending l)

/-- `notificationSchema.statics.findPending` over an explicit store contents:
filter `status == 'pending' && scheduledAt <= now`, then
`.sort({ priority: -1, scheduledAt: 1 })`. -/
def findPending (now : Nat) (store : List Notification) : List Notification :=
  sortPending (store.filter (pendingDue now))

/-- How one channel's send promise settles inside a dispatch round:
the sender resolves after calling `markAsSent` (success), resolves after
calling `markAsFailed` (caught send error), or resolves without touching the
record at all (the email sender's early `return false` when the user cannot
be resolved or has `notifications.email` disabled). -/
inductive Outcome
  | success
  | failure (msg : String)
  | skip
  deriving DecidableEq

/-- Whether an outcome is a caught send error. -/
def Outcome.isFailure : Outcome → Bool
  | Outcome.failure _ => true
  | _ => false

/-- The channels whose sender `NotificationService.sendNotification` invokes:
the four `if (notification.channels.X)` guards.  `deliveryStatus` is not
consulted. -/
def attemptedChannels (n : Notification) : List Channel :=
  channelList.filter (fun c => n.channels c)

/-- Modelled from the spec's words (§4.3 step 2), for comparison with
`attemptedChannels`: `channels[c] == true AND deliveryStatus[c].sent != true`. -/
def attemptedChannelsSpec (n : Notification) : List Channel :=
  channelList.filter (fun c => n.channels c && !(n.deliveryStatus c).sent)

/-- The first statement of `sendNotification`:
`notification.status = 'sending'; await notification.save();` — performed
unconditionally, whatever the record's current status. -/
def startSending (n : Notification) : Notification :=
  { n with status := NStatus.sending }

/-- Effect of one settled channel promise on the record. -/
def applyOutcome (now : Nat) (n : Notification) (co : Channel × Outcome) :
    Notification :=
  match co.2 with
  | Outcome.success => markAsSent now co.1 n
  | Outcome.failure msg => markAsFailed co.1 msg n
  | Outcome.skip => n

/-- One dispatch round of `NotificationService.sendNotification`: set
`status = 'sending'`, then let the attempted channels' promises settle
(`Promise.allSettled`) in the order given by `outs`, each updating the record
through the schema methods. -/
def runRound (now : Nat) (outs : List (Channel × Outcome)) (n : Notification) :
    Notification :=
  outs.foldl (applyOutcome now) (startSending n)

/-- The slice of the user profile the email channel reads:
`user.email` and the `user.notifications.email` opt-in flag. -/
structure EmailUser where
  email : String
  notificationsEmail : Bool

/-- How the SMTP transport behaves for one `sendMail` call. -/
inductive SmtpResult
  | delivered
  | failed (msg : String)
  deriving DecidableEq

/-- `NotificationService.sendEmailNotification`.  The source first resolves
the user (`User.findById`); `if (!user || !user.notifications.email) return
false;` — an early return that touches neither `deliveryStatus` nor
`retryCount`.  Otherwise `sendMail` either succeeds (then `markAsSent('email')`)
or throws (then the catch block runs `markAsFailed('email', message)`).
Returns the updated record and the boolean result of the source function. -/
def sendEmailNotification (now : Nat) (user : Option EmailUser)
    (smtp : SmtpResult) (n : Notification) : Notification × Bool :=
  match user with
  | none => (n, false)
  | some u =>
    if !u.notificationsEmail then (n, false)
    else
      match smtp with
      | SmtpResult.delivered => (markAsSent now Channel.email n, true)
      | SmtpResult.failed m => (markAsFailed Channel.email m n, false)

/-- `NotificationService.processPendingNotifications`: the `for` loop over
`findPending()` sits inside a single `try { ... } catch`, so the first
notification whose dispatch throws ends the sweep; the remaining items are
never handed to `sendNotification`.  `throws n = true` means dispatching `n`
throws (e.g. a store error inside `sendNotification`'s own catch handler).
Returns the list of notifications actually handed to the dispatcher, in
order. -/
def processSweep (throws : Notification → Bool) :
    List Notification → List Notification
  | [] => []
  | n :: rest => if throws n then [n] else n :: processSweep throws rest

/-- One persisted mutation of a notification record by the engine:
the unconditional `status = 'sending'` write opening a dispatch round, a
channel sender settling through `markAsSent`/`markAsFailed` (only ever for an
enabled channel, by the `if (notification.channels.X)` guards), the catch-all
of `sendNotification` writing `status = 'failed'`, the `retry()` method, and
the read-side `markAsRead()`. -/
inductive Step : Notification → Notification → Prop
  | claim (n : Notification) : Step n (startSending n)
  | sendOk (n : Notification) (t : Nat) (c : Channel)
      (h : n.channels c = true) : Step n (markAsSent t c n)
  | sendFail (n : Notification) (c : Channel) (e : String)
      (h : n.channels c = true) : Step n (markAsFailed c e n)
  | sweepCatch (n : Notification) : Step n { n with status := NStatus.failed }
  | doRetry (n : Notification) (t : Nat) : Step n (retry t n)
  | doRead (n : Notification) (t : Nat) : Step n (markAsRead t n)

/-- Reachability: any finite sequence of engine mutations. -/
def Reachable : Notification → Notification → Prop :=
  Relation.ReflTransGen Step

/-- A freshly created record, as the schema defaults build it:
`status: 'pending'`, `retryCount: 0`, every per-channel `deliveryStatus`
subdocument fresh (`sent: false`, no dates, no error), no global
`sentAt`/`readAt`. -/
def Initial (n : Notification) : Prop :=
  n.status = NStatus.pending ∧ n.retryCount = 0 ∧ n.sentAt = none ∧
    n.readAt = none ∧ ∀ c, n.deliveryStatus c = freshDS

instance (n : Notification) : Decidable (Initial n) := by
  unfold Initial
  infer_instance

/-! ## Field-effect lemmas for the schema methods -/

theorem markAsSent_retryCount (now : Nat) (c : Channel) (n : Notification) :
    (markAsSent now c n).retryCount = n.retryCount := by
  simp only [markAsSent]
  split <;> rfl

theorem markAsSent_channels (now : Nat) (c : Channel) (n : Notification) :
    (markAsSent now c n).channels = n.channels := by
  simp only [markAsSent]
  split <;> rfl

theorem markAsSent_status (now : Nat) (c : Channel) (n : Notification) :
    (markAsSent now c n).status = NStatus.sent ∨
      (markAsSent now c n).status = n.status := by
  simp only [markAsSent]
  split
  · exact Or.inl rfl
  · exact Or.inr rfl

theorem markAsSent_sentFlag (now : Nat) (c : Channel) (n : Notification)
    (x : Channel) :
    ((markAsSent now c n).deliveryStatus x).sent =
      (if x = c then true else (n.deliveryStatus x).sent) := by
  simp only [markAsSent]
  split <;> (by_cases hx : x = c <;> simp [hx, setDS])

theorem markAsFailed_retryCount (c : Channel) (e : String) (n : Notification) :
    (markAsFailed c e n).retryCount = n.retryCount + 1 := by
  simp only [markAsFailed]
  split <;> rfl

theorem markAsFailed_channels (c : Channel) (e : String) (n : Notification) :
    (markAsFailed c e n).channels = n.channels := by
  simp only [markAsFailed]
  split <;> rfl

theorem markAsFailed_status (c : Channel) (e : String) (n : Notification) :
    (markAsFailed c e n).status =
      (if n.maxRetries ≤ n.retryCount + 1 then NStatus.failed
       else NStatus.pending) := by
  simp only [markAsFailed]
  split <;> rename_i h <;> rfl

theorem markAsFailed_sentFlag (c : Channel) (e : String) (n : Notification)
    (x : Channel) :
    ((markAsFailed c e n).deliveryStatus x).sent =
      (n.deliveryStatus x).sent := by
  simp only [markAsFailed]
  split <;> (by_cases hx : x = c <;> simp [hx, setDS])

theorem markAsRead_status (t : Nat) (n : Notification) :
    (markAsRead t n).status = n.status := rfl

theorem markAsRead_channels (t : Nat) (n : Notification) :
    (markAsRead t n).channels = n.channels := rfl

theorem markAsRead_sentFlag (t : Nat) (n : Notification) (x : Channel) :
    ((markAsRead t n).deliveryStatus x).sent = (n.deliveryStatus x).sent := by
  simp only [markAsRead]
  by_cases hx : x = Channel.inApp <;> simp [hx, setDS]

theorem markAsRead_retryCount (t : Nat) (n : Notification) :
    (markAsRead t n).retryCount = n.retryCount := rfl

/-! ## The reachable-state invariant behind the overall status -/

/-- Every channel marked sent is an enabled channel. -/
def SentSubsetEnabled (n : Notification) : Prop :=
  ∀ c, (n.deliveryStatus c).sent = true → n.channels c = true

/-- `status == 'sent'` only when every enabled channel is marked sent. -/
def SentImpliesAll (n : Notification) : Prop :=
  n.status = NStatus.sent →
    ∀ c, n.channels c = true → (n.deliveryStatus c).sent = true

theorem mem_channelList (c : Channel) : c ∈ channelList := by
  cases c <;> simp [channelList]

/-- If one Boolean predicate implies another and their filters over
`channelList` have the same length, the two predicates agree on every
channel: this is the combinatorial heart of `markAsSent`, whose
`allChannels.length == sentChannels.length` test stands in for a set
comparison. -/
theorem filter_length_imp {p q : Channel → Bool}
    (h : ∀ a, q a = true → p a = true)
    (hlen : (channelList.filter p).length = (channelList.filter q).length) :
    ∀ a, p a = true → q a = true := by
  have hsub : List.Sublist (channelList.filter q) (channelList.filter p) :=
    List.monotone_filter_right channelList h
  have heq : channelList.filter q = channelList.filter p :=
    hsub.eq_of_length hlen.symm
  intro a ha
  have hmem : a ∈ channelList.filter p :=
    List.mem_filter.mpr (And.intro (mem_channelList a) ha)
  rw [← heq] at hmem
  exact (List.mem_filter.mp hmem).2

theorem startSending_inv {n : Notification}
    (h1 : SentSubsetEnabled n) :
    SentSubsetEnabled (startSending n) ∧ SentImpliesAll (startSending n) := by
  refine And.intro h1 ?_
  intro hstat
  exact absurd hstat (by simp [startSending])

theorem markAsSent_inv {now : Nat} {c : Channel} {n : Notification}
    (hc : n.channels c = true)
    (h1 : SentSubsetEnabled n) (h2 : SentImpliesAll n) :
    SentSubsetEnabled (markAsSent now c n) ∧
      SentImpliesAll (markAsSent now c n) := by
  have hsub : ∀ a, ((markAsSent now c n).deliveryStatus a).sent = true →
      n.channels a = true := by
    intro a ha
    rw [markAsSent_sentFlag] at ha
    by_cases hac : a = c
    · rw [hac]; exact hc
    · rw [if_neg hac] at ha
      exact h1 a ha
  constructor
  · intro a ha
    rw [markAsSent_channels]
    exact hsub a ha
  · intro hstat x hx
    rw [markAsSent_channels] at hx
    rw [markAsSent_sentFlag]
    by_cases hxc : x = c
    · simp [hxc]
    · rw [if_neg hxc]
      revert hstat
      simp only [markAsSent]
      split
      next hlen =>
        intro _
        have hall := filter_length_imp (p := fun k => n.channels k)
          (q := fun k => ((setDS n.deliveryStatus c
            { n.deliveryStatus c with sent := true, sentAt := some now }) k).sent)
          ?_ hlen
        · have hx2 := hall x hx
          simp only [setDS] at hx2
          rw [if_neg hxc] at hx2
          exact hx2
        · intro a ha
          simp only [setDS] at ha
          by_cases hac : a = c
          · rw [hac]; exact hc
          · rw [if_neg hac] at ha
            exact h1 a ha
      next hne =>
        intro hstat
        exact h2 hstat x hx

theorem markAsFailed_inv {c : Channel} {e : String} {n : Notification}
    (h1 : SentSubsetEnabled n) :
    SentSubsetEnabled (markAsFailed c e n) ∧
      SentImpliesAll (markAsFailed c e n) := by
  constructor
  · intro a ha
    rw [markAsFailed_sentFlag] at ha
    rw [markAsFailed_channels]
    exact h1 a ha
  · intro hstat
    rw [markAsFailed_status] at hstat
    revert hstat
    split <;> intro hstat <;> exact absurd hstat (by simp)

theorem step_preserves_inv {n n' : Notification} (hs : Step n n')
    (h1 : SentSubsetEnabled n) (h2 : SentImpliesAll n) :
    SentSubsetEnabled n' ∧ SentImpliesAll n' := by
  cases hs with
  | claim => exact startSending_inv h1
  | sendOk t c hc => exact markAsSent_inv hc h1 h2
  | sendFail c e hc => exact markAsFailed_inv h1
  | sweepCatch =>
    refine And.intro h1 ?_
    intro hstat
    exact absurd hstat (by simp)
  | doRetry t =>
    refine And.intro h1 ?_
    intro hstat
    exact absurd hstat (by simp [retry])
  | doRead t =>
    constructor
    · intro a ha
      rw [markAsRead_sentFlag] at ha
      rw [markAsRead_channels]
      exact h1 a ha
    · intro hstat x hx
      rw [markAsRead_status] at hstat
      rw [markAsRead_channels] at hx
      rw [markAsRead_sentFlag]
      exact h2 hstat x hx

theorem reachable_inv {n0 n : Notification}
    (h1 : SentSubsetEnabled n0) (h2 : SentImpliesAll n0)
    (h : Reachable n0 n) : SentSubsetEnabled n ∧ SentImpliesAll n := by
  induction h with
  | refl => exact And.intro h1 h2
  | tail hsteps hstep ih => exact step_preserves_inv hstep ih.1 ih.2

theorem step_retryCount_mono {n n' : Notification} (hs : Step n n') :
    n.retryCount ≤ n'.retryCount := by
  cases hs with
  | claim => exact Nat.le_refl _
  | sendOk t c hc => rw [markAsSent_retryCount]
  | sendFail c e hc =>
    rw [markAsFailed_retryCount]
    exact Nat.le_succ _
  | sweepCatch => exact Nat.le_refl _
  | doRetry t => exact Nat.le_refl _
  | doRead t => rw [markAsRead_retryCount]

/-! ## Dispatch-round lemmas -/

/-- Number of channel promises of a round that settled as a caught send
error (each of which ran `markAsFailed`). -/
def countFailures (outs : List (Channel × Outcome)) : Nat :=
  (outs.filter (fun co => co.2.isFailure)).length

theorem foldl_retryCount (now : Nat) (outs : List (Channel × Outcome))
    (s : Notification) :
    (outs.foldl (applyOutcome now) s).retryCount =
      s.retryCount + countFailures outs := by
  induction outs generalizing s with
  | nil => simp [countFailures]
  | cons co t ih =>
    obtain ⟨c, oc⟩ := co
    rw [List.foldl_cons, ih]
    cases oc with
    | success =>
      simp [applyOutcome, markAsSent_retryCount, countFailures, Outcome.isFailure]
    | failure m =>
      simp only [applyOutcome, markAsFailed_retryCount, countFailures,
        Outcome.isFailure, List.filter_cons]
      simp
      omega
    | skip =>
      simp [applyOutcome, countFailures, Outcome.isFailure]

theorem foldl_channels (now : Nat) (outs : List (Channel × Outcome))
    (s : Notification) :
    (outs.foldl (applyOutcome now) s).channels = s.channels := by
  induction outs generalizing s with
  | nil => rfl
  | cons co t ih =>
    obtain ⟨c, oc⟩ := co
    rw [List.foldl_cons, ih]
    cases oc with
    | success => rw [applyOutcome, markAsSent_channels]
    | failure m => rw [applyOutcome, markAsFailed_channels]
    | skip => rfl

theorem applyOutcome_status_preserve {now : Nat} {s : Notification}
    {co : Channel × Outcome} (h : s.status ≠ NStatus.sending) :
    (applyOutcome now s co).status ≠ NStatus.sending := by
  obtain ⟨c, oc⟩ := co
  cases oc with
  | success =>
    rcases markAsSent_status now c s with h1 | h1 <;>
      rw [applyOutcome] <;> rw [h1]
    · simp
    · exact h
  | failure m =>
    rw [applyOutcome, markAsFailed_status]
    split <;> simp
  | skip => exact h

theorem foldl_status_preserve {now : Nat} {outs : List (Channel × Outcome)}
    {s : Notification} (h : s.status ≠ NStatus.sending) :
    (outs.foldl (applyOutcome now) s).status ≠ NStatus.sending := by
  induction outs generalizing s with
  | nil => exact h
  | cons co t ih =>
    rw [List.foldl_cons]
    exact ih (applyOutcome_status_preserve h)

theorem foldl_status_of_failure {now : Nat} {outs : List (Channel × Outcome)}
    {s : Notification} (h : ∃ co ∈ outs, co.2.isFailure = true) :
    (outs.foldl (applyOutcome now) s).status ≠ NStatus.sending := by
  induction outs generalizing s with
  | nil =>
    obtain ⟨co, hmem, _⟩ := h
    cases hmem
  | cons co t ih =>
    obtain ⟨co2, hmem, hf⟩ := h
    rw [List.foldl_cons]
    rcases List.mem_cons.mp hmem with heq | hmem2
    · subst heq
      apply foldl_status_preserve
      obtain ⟨c, oc⟩ := co2
      cases oc with
      | success => exact absurd hf (by simp [Outcome.isFailure])
      | failure m =>
        rw [applyOutcome, markAsFailed_status]
        split <;> simp
      | skip => exact absurd hf (by simp [Outcome.isFailure])
    · exact ih ⟨co2, hmem2, hf⟩

theorem foldl_sentFlag_success {now : Nat} {outs : List (Channel × Outcome)}
    (hsucc : ∀ co ∈ outs, co.2 = Outcome.success) (s : Notification)
    (x : Channel) :
    ((outs.foldl (applyOutcome now) s).deliveryStatus x).sent =
      ((s.deliveryStatus x).sent || decide (x ∈ outs.map Prod.fst)) := by
  induction outs generalizing s with
  | nil => simp
  | cons co t ih =>
    obtain ⟨c, oc⟩ := co
    have hc : oc = Outcome.success := hsucc (c, oc) (List.mem_cons_self _ _)
    subst hc
    rw [List.foldl_cons,
      ih (fun co h => hsucc co (List.mem_cons_of_mem _ h))]
    by_cases hx : x = c
    · simp [applyOutcome, markAsSent_sentFlag, hx]
    · have hb : (x == c) = false := beq_eq_false_iff_ne.mpr hx
      simp [applyOutcome, markAsSent_sentFlag, hx, hb]

theorem markAsSent_status_of_count {now : Nat} {c : Channel} {n : Notification}
    (h : (channelList.filter (fun k => n.channels k)).length =
      (channelList.filter (fun k => ((setDS n.deliveryStatus c
        { n.deliveryStatus c with sent := true, sentAt := some now }) k).sent)).length) :
    (markAsSent now c n).status = NStatus.sent := by
  simp only [markAsSent]
  rw [if_pos h]

theorem round_all_success {now : Nat} {outs : List (Channel × Outcome)}
    {n : Notification} (hflags : SentSubsetEnabled n)
    (hcover : ∀ c, c ∈ outs.map Prod.fst ↔ n.channels c = true)
    (hsucc : ∀ co ∈ outs, co.2 = Outcome.success)
    (hne : outs ≠ []) :
    (runRound now outs n).status = NStatus.sent := by
  rcases List.eq_nil_or_concat outs with rfl | ⟨l, co, heq⟩
  · exact absurd rfl hne
  rw [List.concat_eq_append] at heq
  subst heq
  obtain ⟨cl, oc⟩ := co
  have hoc : oc = Outcome.success :=
    hsucc (cl, oc) (List.mem_append_right _ (List.mem_cons_self _ _))
  subst hoc
  rw [runRound, List.foldl_append, List.foldl_cons, List.foldl_nil, applyOutcome]
  set m := l.foldl (applyOutcome now) (startSending n) with hm
  have hch : m.channels = n.channels := foldl_channels now l (startSending n)
  have hfl : ∀ x, (m.deliveryStatus x).sent =
      ((n.deliveryStatus x).sent || decide (x ∈ l.map Prod.fst)) :=
    fun x => foldl_sentFlag_success
      (fun co h => hsucc co (List.mem_append_left _ h)) (startSending n) x
  apply markAsSent_status_of_count
  have hpt : ∀ k ∈ channelList,
      (fun k => m.channels k) k = (fun k => ((setDS m.deliveryStatus cl
        { m.deliveryStatus cl with sent := true, sentAt := some now }) k).sent) k := by
    intro k _
    simp only [setDS]
    by_cases hk : k = cl
    · rw [if_pos hk, hch, hk]
      exact (hcover cl).mp
        (by rw [List.map_append]
            exact List.mem_append_right _ (by simp))
    · rw [if_neg hk, hch, hfl k]
      by_cases hck : n.channels k = true
      · have hmem : k ∈ (l ++ [(cl, Outcome.success)]).map Prod.fst :=
          (hcover k).mpr hck
        rw [List.map_append] at hmem
        rcases List.mem_append.mp hmem with hmem2 | hmem2
        · simp [hck, hmem2]
        · simp at hmem2
          exact absurd hmem2 hk
      · have hns : (n.deliveryStatus k).sent = false := by
          cases hsent : (n.deliveryStatus k).sent
          · rfl
          · exact absurd (hflags k hsent) hck
        have hnm : ¬ k ∈ l.map Prod.fst := by
          intro hmem
          exact hck ((hcover k).mp
            (by rw [List.map_append]; exact List.mem_append_left _ hmem))
        have hchf : n.channels k = false := by
          cases hv : n.channels k
          · rfl
          · exact absurd hv hck
        rw [hchf, hns]
        simp [hnm]
  exact congrArg List.length (List.filter_congr hpt)

/-! ## Supporting facts and instances -/

/-- The numeric rank used by `sortLE` agrees with byte-wise order on the
stored priority strings. -/
theorem priorityStrRank_lt_iff (p q : Priority) :
    priorityStrRank p < priorityStrRank q ↔ priorityStr p < priorityStr q := by
  cases p <;> cases q <;> rw [String.lt_iff_toList_lt] <;> decide

instance (n : Notification) : Decidable (SentSubsetEnabled n) := by
  unfold SentSubsetEnabled
  infer_instance

instance (n : Notification) : Decidable (SentImpliesAll n) := by
  unfold SentImpliesAll
  infer_instance

/-- Channel-enable map from the four schema booleans, in schema order. -/
def mkCh (t e p i : Bool) : Channel → Bool :=
  fun c => match c with
  | Channel.telegram => t
  | Channel.email => e
  | Channel.push => p
  | Channel.inApp => i

/-- A record created with the given channels, priority, `scheduledAt` and
`maxRetries`, and all other schema defaults. -/
def mkFresh (ch : Channel → Bool) (prio : Priority) (sched maxR : Nat) :
    Notification :=
  { channels := ch, deliveryStatus := fun _ => freshDS, priority := prio,
    status := NStatus.pending, scheduledAt := sched, sentAt := none,
    readAt := none, retryCount := 0, maxRetries := maxR }

/-! ## Claim C1 -/

/-- A pending record whose only enabled channel (telegram) is already marked
sent — e.g. the state after a round in which telegram succeeded while the
record was reset to pending. -/
def nResend : Notification :=
  { channels := mkCh true false false false,
    deliveryStatus := fun c => match c with
      | Channel.telegram =>
        { sent := true, sentAt := some 0, error := none, readAt := none }
      | _ => freshDS,
    priority := Priority.normal, status := NStatus.pending, scheduledAt := 0,
    sentAt := none, readAt := none, retryCount := 0, maxRetries := 3 }

/-- Claim C1, as stated, is false: `sendNotification` fans out on
`channels[c]` alone, so a channel whose `deliveryStatus[c].sent` is already
`true` is attempted again (`nResend`'s telegram channel is in the attempted
set even though it is marked sent; the spec's own attempted-set formula
excludes it). -/
theorem C1_counterexample :
    (nResend.deliveryStatus Channel.telegram).sent = true ∧
      Channel.telegram ∈ attemptedChannels nResend ∧
      ¬ Channel.telegram ∈ attemptedChannelsSpec nResend := by
  refine And.intro rfl (And.intro ?_ ?_) <;> decide

/-- Claim C1 (amended): a dispatch round invokes a channel sender for
exactly the channels with `channels[c] == true`; `deliveryStatus[c].sent` is
not consulted, so a channel that already succeeded is re-attempted in every
later round (the spec's skip-already-sent set would additionally require
`deliveryStatus[c].sent != true`). -/
theorem C1_amended (n : Notification) (c : Channel) :
    (c ∈ attemptedChannels n ↔ n.channels c = true) ∧
      (c ∈ attemptedChannelsSpec n ↔
        (n.channels c = true ∧ (n.deliveryStatus c).sent = false)) := by
  constructor
  · rw [attemptedChannels, List.mem_filter]
    simp [mem_channelList]
  · rw [attemptedChannelsSpec, List.mem_filter]
    simp [mem_channelList]

/-! ## Claim C2 -/

/-- A freshly created record with every channel disabled. -/
def nNoChannels : Notification :=
  mkFresh (mkCh false false false false) Priority.normal 0 3

/-- Claim C2, as stated, is false: the equivalence `status == sent ⟺ every
enabled channel sent` fails in the reachable state `nNoChannels` (a freshly
created record with no enabled channel): the right-hand side is vacuously
true while `status` is `pending`. -/
theorem C2_counterexample :
    ¬ (∀ n0 n : Notification, Initial n0 → Reachable n0 n →
        (n.status = NStatus.sent ↔
          ∀ c, n.channels c = true → (n.deliveryStatus c).sent = true)) := by
  intro h
  have hall : ∀ c, nNoChannels.channels c = true →
      (nNoChannels.deliveryStatus c).sent = true := by decide
  have h2 := (h nNoChannels nNoChannels (by decide)
    Relation.ReflTransGen.refl).mpr hall
  exact absurd h2 (by decide)

/-- Claim C2 (amended): only the forward direction holds — in every state
reachable from a freshly created record, `status == sent` implies that every
channel with `channels[c] == true` has `deliveryStatus[c].sent == true`.
(The converse fails, e.g. for a record with no enabled channel.) -/
theorem C2_amended (n0 n : Notification) (h0 : Initial n0) (hr : Reachable n0 n)
    (hs : n.status = NStatus.sent) :
    ∀ c, n.channels c = true → (n.deliveryStatus c).sent = true := by
  have h1 : SentSubsetEnabled n0 := by
    intro c hc
    rw [h0.2.2.2.2 c] at hc
    exact absurd hc (by decide)
  have h2 : SentImpliesAll n0 := by
    intro hstat
    rw [h0.1] at hstat
    exact absurd hstat (by decide)
  exact (reachable_inv h1 h2 hr).2 hs

/-- A freshly created record with only the inApp channel enabled. -/
def nC2w : Notification :=
  mkFresh (mkCh false false false true) Priority.normal 0 3

/-- Witness for `C2_amended`: the record `nC2w` is initial, and after a
claim step and a successful inApp send its state is `sent` with the enabled
channel marked sent. -/
theorem C2_amended_witness :
    Initial nC2w ∧
      ((markAsSent 1 Channel.inApp (startSending nC2w)).deliveryStatus
        Channel.inApp).sent = true := by
  refine And.intro (by decide) ?_
  have hr : Reachable nC2w (markAsSent 1 Channel.inApp (startSending nC2w)) :=
    Relation.ReflTransGen.tail
      (Relation.ReflTransGen.tail Relation.ReflTransGen.refl (Step.claim nC2w))
      (Step.sendOk (startSending nC2w) 1 Channel.inApp (by decide))
  exact C2_amended nC2w _ (by decide) hr (by decide) Channel.inApp (by decide)

/-! ## Claim C3 -/

/-- A fresh record with telegram and email enabled and `maxRetries = 1`. -/
def nC3 : Notification := mkFresh (mkCh true true false false) Priority.normal 0 1

/-- Claim C3, as stated, is false: `retryCount` can exceed `maxRetries`.
From the fresh record `nC3` (`maxRetries = 1`), one dispatch round in which
both enabled channels fail runs `markAsFailed` twice, leaving
`retryCount = 2 > 1 = maxRetries`. -/
theorem C3_counterexample :
    ¬ (∀ n0 n : Notification, Initial n0 → Reachable n0 n →
        n.retryCount ≤ n.maxRetries) := by
  intro h
  have hr : Reachable nC3 (markAsFailed Channel.email "e2"
      (markAsFailed Channel.telegram "e1" (startSending nC3))) :=
    Relation.ReflTransGen.tail
      (Relation.ReflTransGen.tail
        (Relation.ReflTransGen.tail Relation.ReflTransGen.refl
          (Step.claim nC3))
        (Step.sendFail (startSending nC3) Channel.telegram "e1" (by decide)))
      (Step.sendFail _ Channel.email "e2" (by decide))
  have h2 := h nC3 _ (by decide) hr
  exact absurd h2 (by decide)

/-- Claim C3 (amended): `retryCount` is monotonically non-decreasing along
every sequence of engine operations; the bound `retryCount ≤ maxRetries` is
not maintained (each failed channel of a round increments the counter, and
`markAsFailed` increments it even at the cap). -/
theorem C3_amended (n0 n : Notification) (h : Reachable n0 n) :
    n0.retryCount ≤ n.retryCount := by
  induction h with
  | refl => exact Nat.le_refl _
  | tail hsteps hstep ih => exact Nat.le_trans ih (step_retryCount_mono hstep)

/-- Witness for `C3_amended`: along a claim step followed by a failed
telegram send, `retryCount` does not decrease. -/
theorem C3_amended_witness :
    nC3.retryCount ≤ (markAsFailed Channel.telegram "e1"
      (startSending nC3)).retryCount :=
  C3_amended nC3 _
    (Relation.ReflTransGen.tail
      (Relation.ReflTransGen.tail Relation.ReflTransGen.refl (Step.claim nC3))
      (Step.sendFail (startSending nC3) Channel.telegram "e1" (by decide)))

/-! ## Claim C4 -/

/-- A fresh record with telegram and email enabled and the default
`maxRetries = 3`. -/
def nC4 : Notification := mkFresh (mkCh true true false false) Priority.normal 0 3

/-- A dispatch round in which both enabled channels fail. -/
def outsC4 : List (Channel × Outcome) :=
  [(Channel.telegram, Outcome.failure "boom"), (Channel.email, Outcome.failure "boom")]

/-- Claim C4, as stated, is false: a round with two channel failures
increments `retryCount` by two (once per failed channel), not by exactly one
for the whole round. -/
theorem C4_counterexample :
    (runRound 0 outsC4 nC4).retryCount = 2 ∧ nC4.retryCount = 0 ∧
      countFailures outsC4 = 2 := by
  refine And.intro (by decide) (And.intro rfl (by decide))

/-- Claim C4 (amended): a dispatch round increments `retryCount` once per
failed channel (by the number of failure outcomes of the round, not by
exactly one); each individual `markAsFailed` call then sets
`status = failed` if the incremented `retryCount >= maxRetries`, else
`status = pending`. -/
theorem C4_amended :
    (∀ (now : Nat) (outs : List (Channel × Outcome)) (n : Notification),
      (runRound now outs n).retryCount = n.retryCount + countFailures outs) ∧
    (∀ (c : Channel) (e : String) (n : Notification),
      (markAsFailed c e n).status =
        (if n.maxRetries ≤ n.retryCount + 1 then NStatus.failed
         else NStatus.pending)) := by
  constructor
  · intro now outs n
    rw [runRound, foldl_retryCount]
    rfl
  · intro c e n
    exact markAsFailed_status c e n

/-! ## Claim C5 -/

/-- A due pending record with priority `high`. -/
def nHigh : Notification := mkFresh (mkCh true false false false) Priority.high 0 3

/-- A due pending record with priority `low`, same `scheduledAt`. -/
def nLow : Notification := mkFresh (mkCh true false false false) Priority.low 0 3

/-- Claim C5: the filter of `findPending` is as claimed, but the order is
not — `priority` is a string, so `.sort({ priority: -1 })` sorts
byte-wise descending (`urgent > normal > low > high`), placing `high`
*after* `low`.  Evaluating the model on two due pending records with equal
`scheduledAt`: the `low` record is returned before the `high` record. -/
theorem C5_bug :
    findPending 0 [nHigh, nLow] = [nLow, nHigh] ∧
      (findPending 0 [nHigh, nLow]).map (fun n => priorityStr n.priority) =
        ["low", "high"] ∧
      nHigh.scheduledAt = nLow.scheduledAt ∧
      nHigh.status = NStatus.pending ∧ nLow.status = NStatus.pending := by
  refine And.intro rfl (And.intro rfl (And.intro rfl (And.intro rfl rfl)))

/-! ## Claim C6 -/

/-- A record already in the terminal state `sent` (its one enabled channel
delivered), as `markAsSent` leaves it. -/
def nC6 : Notification :=
  { channels := mkCh true false false false,
    deliveryStatus := fun c => match c with
      | Channel.telegram =>
        { sent := true, sentAt := some 0, error := none, readAt := none }
      | _ => freshDS,
    priority := Priority.normal, status := NStatus.sent, scheduledAt := 0,
    sentAt := some 0, readAt := none, retryCount := 0, maxRetries := 3 }

/-- Claim C6, as stated, is false: `sendNotification` performs no
compare-and-swap and never aborts.  Handed the terminal record `nC6`
(status `sent`), it still overwrites `status` with `sending`, still fans out
to the enabled channel, and the round mutates the record (a fresh
`sentAt` timestamp on the re-sent channel). -/
theorem C6_counterexample :
    nC6.status = NStatus.sent ∧
      (startSending nC6).status = NStatus.sending ∧
      attemptedChannels nC6 = [Channel.telegram] ∧
      ((runRound 7 [(Channel.telegram, Outcome.success)] nC6).deliveryStatus
        Channel.telegram).sentAt = some 7 := by
  refine And.intro rfl (And.intro rfl (And.intro (by decide) (by decide)))

/-- Claim C6 (amended): the dispatcher begins a round by unconditionally
writing `status = sending`, with no status check and no abort: the result of
a round does not depend on the record's prior status, and any record —
pending, already `sending`, or terminal — is dispatched identically. -/
theorem C6_amended :
    (∀ n : Notification, (startSending n).status = NStatus.sending) ∧
      (∀ (n : Notification) (s : NStatus) (now : Nat)
        (outs : List (Channel × Outcome)),
        runRound now outs { n with status := s } = runRound now outs n) := by
  constructor
  · intro n
    rfl
  · intro n s now outs
    rfl

/-! ## Claim C7 -/

/-- A freshly created record with no enabled channel (same shape as
`nNoChannels`, kept separate for this claim). -/
def nC7e : Notification :=
  mkFresh (mkCh false false false false) Priority.urgent 0 3

/-- Claim C7, as stated, is false: when the attempted set is empty the round
is not "treated as sent" — `sendNotification` sets `status = 'sending'`,
awaits an empty promise list and returns, leaving the record in `sending`
forever. -/
theorem C7_counterexample :
    (runRound 0 [] nC7e).status = NStatus.sending ∧
      attemptedChannels nC7e = [] := by
  exact And.intro (by decide) (by decide)

/-- Claim C7 (amended): provided at least one channel is enabled, every
attempted channel settles by recording an outcome (`markAsSent` or
`markAsFailed` — no silent email skip), the attempted set is exactly the
enabled set, and sent flags only occur on enabled channels, the record is
not left in `sending` after the round settles.  (With an empty enabled set
the record *is* left as `sending`, not treated as `sent`.) -/
theorem C7_amended (now : Nat) (outs : List (Channel × Outcome))
    (n : Notification) (hflags : SentSubsetEnabled n)
    (hcover : ∀ c, c ∈ outs.map Prod.fst ↔ n.channels c = true)
    (hnoskip : ∀ co ∈ outs, co.2 ≠ Outcome.skip)
    (hen : ∃ c, n.channels c = true) :
    (runRound now outs n).status ≠ NStatus.sending := by
  by_cases hfail : ∃ co ∈ outs, co.2.isFailure = true
  · rw [runRound]
    exact foldl_status_of_failure hfail
  · have hsucc : ∀ co ∈ outs, co.2 = Outcome.success := by
      intro co hmem
      cases hoc : co.2 with
      | success => rfl
      | failure m =>
        exact absurd (Exists.intro co (And.intro hmem (by rw [hoc]; rfl))) hfail
      | skip => exact absurd hoc (hnoskip co hmem)
    have hne : outs ≠ [] := by
      obtain ⟨c, hc⟩ := hen
      intro hnil
      have hm := (hcover c).mpr hc
      rw [hnil] at hm
      cases hm
    have hst := @round_all_success now outs n hflags hcover hsucc hne
    rw [hst]
    decide

/-- A fresh record with only inApp enabled, for the `C7_amended` witness. -/
def nC7w : Notification :=
  mkFresh (mkCh false false false true) Priority.normal 0 3

/-- Witness for `C7_amended`: a round on `nC7w` in which the single enabled
channel succeeds does not end in `sending`. -/
theorem C7_amended_witness :
    SentSubsetEnabled nC7w ∧
      (runRound 4 [(Channel.inApp, Outcome.success)] nC7w).status ≠
        NStatus.sending :=
  And.intro (by decide)
    (C7_amended 4 [(Channel.inApp, Outcome.success)] nC7w (by decide)
      (by decide) (by decide) (Exists.intro Channel.inApp (by decide)))

/-! ## Claim C8 -/

/-- A fresh record with only the email channel enabled. -/
def nC8 : Notification := mkFresh (mkCh false true false false) Priority.normal 0 3

/-- A user profile with email notifications disabled. -/
def optedOut : EmailUser := { email := "u@example.com", notificationsEmail := false }

/-- Claim C8, as stated, is false: with the recipient unresolved (or opted
out) the email attempt returns `false` while recording nothing — no
`deliveryStatus.email.error`, no `retryCount` advance, no
`deliveryStatus.email.sent` — even though the channel is enabled and the
send did not succeed. -/
theorem C8_counterexample :
    sendEmailNotification 0 none (SmtpResult.failed "smtp down") nC8 =
        (nC8, false) ∧
      sendEmailNotification 0 (some optedOut) (SmtpResult.failed "smtp down")
        nC8 = (nC8, false) ∧
      (nC8.deliveryStatus Channel.email).error = none ∧
      (nC8.deliveryStatus Channel.email).sent = false ∧
      nC8.retryCount = 0 ∧ nC8.channels Channel.email = true := by
  exact And.intro rfl (And.intro rfl (And.intro rfl (And.intro rfl
    (And.intro rfl rfl))))

/-- Claim C8 (amended): when the recipient's user record cannot be resolved
or the user has opted out of email notifications, `sendEmailNotification`
returns `false` and leaves the notification record completely untouched: no
`ChannelSendError` is recorded, `retryCount` does not advance, and the
channel is not marked sent (a silent no-op rather than either of the claim's
two permitted behaviours). -/
theorem C8_amended (now : Nat) (user : Option EmailUser) (smtp : SmtpResult)
    (n : Notification)
    (h : user = none ∨ ∃ u, user = some u ∧ u.notificationsEmail = false) :
    sendEmailNotification now user smtp n = (n, false) := by
  rcases h with rfl | ⟨u, rfl, hu⟩
  · rfl
  · simp [sendEmailNotification, hu]

/-- Witness for `C8_amended`: the opted-out user, with a transport that
would deliver, still produces a silent no-op. -/
theorem C8_amended_witness :
    sendEmailNotification 3 (some optedOut) SmtpResult.delivered nC8 =
      (nC8, false) :=
  C8_amended 3 (some optedOut) SmtpResult.delivered nC8
    (Or.inr (Exists.intro optedOut (And.intro rfl rfl)))

/-! ## Claim C9 -/

/-- A dispatch oracle under which exactly the notifications scheduled at
time 5 throw (e.g. their persistence fails inside `sendNotification`'s own
catch handler). -/
def throwsAt5 : Notification → Bool := fun n => n.scheduledAt == 5

/-- A due record whose dispatch does not throw. -/
def nOk : Notification := mkFresh (mkCh true false false false) Priority.normal 0 3

/-- A record (scheduled at 5) whose dispatch throws. -/
def nBad : Notification := mkFresh (mkCh true false false false) Priority.normal 5 3

/-- Claim C9, as stated, is false: the `try/catch` of
`processPendingNotifications` wraps the whole `for` loop, so when the first
notification's dispatch throws, the remaining notification (`nOk`,
scheduled at 0) is never handed to the dispatcher: the dispatched list is
just `[nBad]`. -/
theorem C9_counterexample :
    processSweep throwsAt5 [nBad, nOk] = [nBad] ∧
      throwsAt5 nBad = true ∧ throwsAt5 nOk = false ∧
      (processSweep throwsAt5 [nBad, nOk]).map (fun m => m.scheduledAt) =
        [5] ∧ nOk.scheduledAt = 0 := by
  exact And.intro rfl (And.intro rfl (And.intro rfl (And.intro rfl rfl)))

/-- Claim C9 (amended): a throwing dispatch is caught at sweep level (the
sweep itself returns instead of propagating), but it aborts the rest of the
sweep: if every notification before `n` dispatches without throwing and
`n`'s dispatch throws, exactly the prefix up to and including `n` is handed
to the dispatcher and the remainder is skipped. -/
theorem C9_amended (throws : Notification → Bool) (l1 : List Notification)
    (n : Notification) (l2 : List Notification)
    (h1 : ∀ m ∈ l1, throws m = false) (h2 : throws n = true) :
    processSweep throws (l1 ++ n :: l2) = l1 ++ [n] := by
  induction l1 with
  | nil => simp [processSweep, h2]
  | cons a t ih =>
    have ha : throws a = false := h1 a (List.mem_cons_self _ _)
    rw [List.cons_append]
    simp only [processSweep, ha]
    rw [ih (fun m hm => h1 m (List.mem_cons_of_mem _ hm))]
    simp

/-- Witness for `C9_amended`: with `nOk` before the throwing `nBad` and
another `nOk` after it, the sweep dispatches `[nOk, nBad]` only. -/
theorem C9_amended_witness :
    processSweep throwsAt5 ([nOk] ++ nBad :: [nOk]) = [nOk] ++ [nBad] :=
  C9_amended throwsAt5 [nOk] nBad [nOk] (by decide) (by decide)

/-! ## Claim C10 -/

/-- Claim C10 (confirmed): `retry()` works from any current status,
including the terminal ones (`sent`, `failed`, `cancelled`): it always sets
`status = pending` and `scheduledAt` to the current time, after which the
record satisfies the `findPending` filter (it is eligible for the next
sweep). -/
theorem C10_retry (t : Nat) (n : Notification) :
    (retry t n).status = NStatus.pending ∧ (retry t n).scheduledAt = t ∧
      pendingDue t (retry t n) = true := by
  refine And.intro rfl (And.intro rfl ?_)
  simp [pendingDue, retry]

end Notif
